import Mathlib

set_option maxRecDepth 4000

namespace McpActions

/-- JSON values, modelling the JavaScript JSON data that flows through the
plugin (action schemas, tool invocation arguments and outputs, audit event
metadata).  Numbers are modelled as integers; the plugin itself never
computes with fractional JSON numbers. -/
inductive Json where
  | null
  | bool (b : Bool)
  | num (n : Int)
  | str (s : String)
  | arr (items : List Json)
  | obj (fields : List (String × Json))

/-- Field lookup on a JSON object (`undefined` on anything else), modelling
JavaScript property access on a parsed object. -/
def Json.get : Json → String → Option Json
  | .obj fields, key => fields.lookup key
  | _, _ => none

/-- Four lowercase hex digits, as produced by `JSON.stringify` for escaped
control characters. -/
def hexDigit (n : Nat) : Char :=
  if n < 10 then Char.ofNat (48 + n) else Char.ofNat (87 + n)

/-- The escape sequence `JSON.stringify` produces for a single character of a
string value. -/
def jsonEscapeChar (c : Char) : List Char :=
  if c = '"' then ['\\', '"']
  else if c = '\\' then ['\\', '\\']
  else if c = '\x08' then ['\\', 'b']
  else if c = '\x0c' then ['\\', 'f']
  else if c = '\n' then ['\\', 'n']
  else if c = '\r' then ['\\', 'r']
  else if c = '\t' then ['\\', 't']
  else if c.toNat < 32 then
    ['\\', 'u', '0', '0', hexDigit (c.toNat / 16), hexDigit (c.toNat % 16)]
  else [c]

/-- A JSON string literal: the double-quoted, escaped form of `s`. -/
def jsonQuote (s : String) : String :=
  ⟨'"' :: (s.data.map jsonEscapeChar).flatten ++ ['"']⟩

mutual

/-- Compact serialization, modelling `JSON.stringify(v)` (no indent
argument), as used for the `inputSize`/`outputSize` audit metrics. -/
def jsonStringify : Json → String
  | .null => "null"
  | .bool true => "true"
  | .bool false => "false"
  | .num n => toString n
  | .str s => jsonQuote s
  | .arr items => "[" ++ jsonStringifyItems items ++ "]"
  | .obj fields => "\x7b" ++ jsonStringifyFields fields ++ "\x7d"

def jsonStringifyItems : List Json → String
  | [] => ""
  | [j] => jsonStringify j
  | j :: j' :: rest => jsonStringify j ++ "," ++ jsonStringifyItems (j' :: rest)

def jsonStringifyFields : List (String × Json) → String
  | [] => ""
  | [(k, v)] => jsonQuote k ++ ":" ++ jsonStringify v
  | (k, v) :: f :: rest =>
      jsonQuote k ++ ":" ++ jsonStringify v ++ "," ++ jsonStringifyFields (f :: rest)

end

/-- The indentation in front of a value nested at `depth` when serializing
with a gap of two spaces. -/
def jsonIndent (depth : Nat) : String :=
  ⟨List.replicate (2 * depth) ' '⟩

mutual

/-- Pretty serialization at nesting level `depth`, modelling
`JSON.stringify(v, null, 2)` as used for the invocation result text. -/
def jsonPretty : Nat → Json → String
  | _, .null => "null"
  | _, .bool true => "true"
  | _, .bool false => "false"
  | _, .num n => toString n
  | _, .str s => jsonQuote s
  | _, .arr [] => "[]"
  | depth, .arr (j :: rest) =>
      "[\n" ++ jsonPrettyItems (depth + 1) (j :: rest) ++ "\n" ++ jsonIndent depth ++ "]"
  | _, .obj [] => "\x7b\x7d"
  | depth, .obj (f :: rest) =>
      "\x7b\n" ++ jsonPrettyFields (depth + 1) (f :: rest) ++ "\n" ++ jsonIndent depth ++ "\x7d"

def jsonPrettyItems : Nat → List Json → String
  | _, [] => ""
  | depth, [j] => jsonIndent depth ++ jsonPretty depth j
  | depth, j :: j' :: rest =>
      jsonIndent depth ++ jsonPretty depth j ++ ",\n" ++ jsonPrettyItems depth (j' :: rest)

def jsonPrettyFields : Nat → List (String × Json) → String
  | _, [] => ""
  | depth, [(k, v)] => jsonIndent depth ++ jsonQuote k ++ ": " ++ jsonPretty depth v
  | depth, (k, v) :: f :: rest =>
      jsonIndent depth ++ jsonQuote k ++ ": " ++ jsonPretty depth v ++ ",\n" ++
        jsonPrettyFields depth (f :: rest)

end

/-- Top-level pretty serialization, `JSON.stringify(v, null, 2)`. -/
def jsonStringifyPretty (v : Json) : String :=
  jsonPretty 0 v

/-! Kebab-casing of audit event ids.  `auditCreateEvent` in
`createStreamableRouter.ts` normalizes event ids with the external
`just-kebab-case` dependency before adding the `mcp-` marker.  The functions
below model that library's algorithm on the ASCII fragment relevant to event
ids: a capital followed by a lowercase letter starts a new word, remaining
capital runs become their own lowercased words, and the result is trimmed and
split on whitespace/underscore word separators, then joined with hyphens. -/

/-- ASCII capital letter, the `[A-Z]` character class of `just-kebab-case`
(codes 65–90). -/
def isAsciiUpper (c : Char) : Bool :=
  65 ≤ c.toNat && c.toNat ≤ 90

/-- ASCII lowercase letter, the `[a-z]` character class (codes 97–122). -/
def isAsciiLower (c : Char) : Bool :=
  97 ≤ c.toNat && c.toNat ≤ 122

/-- JavaScript whitespace (the ASCII part of the `\s` class: tab, line
feed, vertical tab, form feed, carriage return, space). -/
def isJsSpace (c : Char) : Bool :=
  c.toNat = 32 || c.toNat = 9 || c.toNat = 10 || c.toNat = 11 ||
    c.toNat = 12 || c.toNat = 13

/-- A word separator of `just-kebab-case`: whitespace or underscore
(code 95). -/
def isWordSep (c : Char) : Bool :=
  isJsSpace c || c.toNat = 95

/-- ASCII lowercasing of a capital letter, `String.prototype.toLowerCase`
restricted to `[A-Z]`. -/
def toLowerChar (c : Char) : Char :=
  if isAsciiUpper c then Char.ofNat (c.toNat + 32) else c

/-- First `just-kebab-case` pass: every capital directly followed by a
lowercase letter is replaced by a space plus its lowercase form. -/
def splitCaps : List Char → List Char
  | c :: c' :: rest =>
      if isAsciiUpper c && isAsciiLower c' then
        ' ' :: toLowerChar c :: c' :: splitCaps rest
      else
        c :: splitCaps (c' :: rest)
  | l => l

mutual

/-- Second `just-kebab-case` pass: each maximal run of capitals is replaced
by a space plus the lowercased run. -/
def lowerCapRuns : List Char → List Char
  | [] => []
  | c :: rest =>
      if isAsciiUpper c then ' ' :: toLowerChar c :: lowerCapRunTail rest
      else c :: lowerCapRuns rest

/-- Continuation of `lowerCapRuns` inside a capital run (no extra space). -/
def lowerCapRunTail : List Char → List Char
  | [] => []
  | c :: rest =>
      if isAsciiUpper c then toLowerChar c :: lowerCapRunTail rest
      else c :: lowerCapRuns rest

end

/-- `String.prototype.trim`: drop whitespace from both ends. -/
def trimBoth (l : List Char) : List Char :=
  ((l.dropWhile isJsSpace).reverse.dropWhile isJsSpace).reverse

/-- Prepend a character to the first part of a split. -/
def consHead (c : Char) : List (List Char) → List (List Char)
  | [] => [[c]]
  | w :: ws => (c :: w) :: ws

mutual

/-- `str.split(/[\s_]+/)`: split on maximal nonempty separator runs, keeping
the (possibly empty) parts between them. -/
def splitSeps : List Char → List (List Char)
  | [] => [[]]
  | c :: rest =>
      if isWordSep c then [] :: splitSepsSkip rest
      else consHead c (splitSeps rest)

/-- State of `splitSeps` just after a separator: further separators extend
the same run instead of opening new empty parts. -/
def splitSepsSkip : List Char → List (List Char)
  | [] => [[]]
  | c :: rest =>
      if isWordSep c then splitSepsSkip rest
      else consHead c (splitSeps rest)

end

/-- `parts.join('-')`. -/
def joinHyphen : List (List Char) → List Char
  | [] => []
  | [w] => w
  | w :: ws => w ++ '-' :: joinHyphen ws

/-- The `just-kebab-case` normalization used by `auditCreateEvent`. -/
def kebabCase (s : String) : String :=
  ⟨joinHyphen (splitSeps (trimBoth (lowerCapRuns (splitCaps s.data))))⟩

/-- `JavaScript String.prototype.startsWith`, modelled on the character
list. -/
def jsStartsWith (s pre : String) : Bool :=
  pre.data.isPrefixOf s.data

/-- Fallback id used by `auditCreateEvent` when no event id is given. -/
def UNKNOWN_MCP_EVENT : String := "mcp-unknown-event"

/-- The event-id normalization performed by `auditCreateEvent` in
`auditorUtils.ts`: kebab-case the id (falling back to `mcp-unknown-event`
for an `undefined` or empty id, which are both falsy in JavaScript) and add
the `mcp-` marker in front unless it is already there. -/
def auditCreateEventId (eventId : Option String) : String :=
  let normalized :=
    match eventId with
    | some s => if s = "" then UNKNOWN_MCP_EVENT else kebabCase s
    | none => UNKNOWN_MCP_EVENT
  if jsStartsWith normalized "mcp-" then normalized else "mcp-" ++ normalized

/-! Data model of the external collaborators, following the interfaces the
two source files consume. -/

/-- The `schema` member of an action (`{input, output}`). -/
structure ActionSchema where
  input : Json
  output : Json

/-- The `attributes` member of an action. -/
structure ActionAttributes where
  destructive : Bool
  idempotent : Bool
  readOnly : Bool

/-- An action returned by `ActionsService.list`. -/
structure Action where
  id : String
  name : String
  description : String
  title : String
  schema : ActionSchema
  attributes : ActionAttributes

/-- A resolved credential; the handlers only ever read
`(credentials.principal as any).userEntityRef`, for audit metadata. -/
structure Credential where
  userEntityRef : String
deriving DecidableEq

/-- A thrown JavaScript `Error`: its `name` (e.g. `"NotFoundError"`) and
`message`, the two fields the handlers inspect. -/
structure Err where
  name : String
  message : String
deriving DecidableEq

/-- Behavior of the external `ActionsService` during one handled request:
the outcome of `actions.list` under a credential, and of `actions.invoke`
for an action id, input and credential. -/
structure ActionsService where
  listResult : Credential → Except Err (List Action)
  invokeResult : String → Option Json → Credential → Except Err Json

/-- Audit metadata: the `meta` object passed to `auditor.createEvent`.
Wall-clock `duration` fields are not modelled. -/
abbrev Meta := List (String × Json)

/-- One observable step of a handler run: an audit-event creation (the
`Nat` is the handle, numbered in creation order within the run), a
success/fail completion of a previously created handle, or a call to an
external collaborator. -/
inductive Ev where
  | create (handle : Nat) (eventId : String) (severityLevel : String) (meta : Meta)
  | evSuccess (handle : Nat) (meta : Meta)
  | evFail (handle : Nat) (errorType : String) (errorMessage : String)
  | callCredentials
  | callActionsList (credentials : Credential)
  | callActionsInvoke (id : String) (input : Option Json) (credentials : Credential)
  | callHandleRequest
  | callHandlePostMessage (sessionId : String)

/-- `true` exactly on the trace entries that complete audit handle `h`. -/
def completesHandle (h : Nat) : Ev → Bool
  | .evSuccess h' _ => h' == h
  | .evFail h' _ _ => h' == h
  | _ => false

/-- `true` exactly on success completions of audit handle `h`. -/
def successOfHandle (h : Nat) : Ev → Bool
  | .evSuccess h' _ => h' == h
  | _ => false

/-- `true` exactly on fail completions of audit handle `h`. -/
def failOfHandle (h : Nat) : Ev → Bool
  | .evFail h' _ _ => h' == h
  | _ => false

/-- `true` exactly on `actions.list` calls. -/
def isCallList : Ev → Bool
  | .callActionsList _ => true
  | _ => false

/-- `true` exactly on `actions.invoke` calls. -/
def isCallInvoke : Ev → Bool
  | .callActionsInvoke _ _ _ => true
  | _ => false

/-- `true` exactly on `transport.handlePostMessage` forwards. -/
def isCallPostMessage : Ev → Bool
  | .callHandlePostMessage _ => true
  | _ => false

/-- Discriminates `Except.ok`. -/
def exOk {ε α : Type} : Except ε α → Bool
  | .ok _ => true
  | .error _ => false

/-! The `McpService` RPC handlers (`McpService.ts`). -/

/-- The classification a failure carries after the `handleErrors` wrapper:
either the distinct not-found class or the generic internal class, each with
a client-visible message. -/
inductive McpErr where
  | notFound (message : String)
  | internal (message : String)

/-- Modelled from the spec: the `handleErrors` wrapper imported from
`./handleErrors` is not among the provided sources.  Per the spec's Error
Classifier (§4.4, §7): not-found conditions surface as a distinct not-found
classification whose message carries the offending identifier, and every
other failure maps to the generic internal classification with the fixed
message "Internal server error". -/
def handleErrors {α : Type} : Except Err α → Except McpErr α
  | .ok a => .ok a
  | .error e =>
      if e.name = "NotFoundError" then .error (.notFound e.message)
      else .error (.internal "Internal server error")

/-- One element of the protocol `content` array returned by the call-tool
handler. -/
structure CallContent where
  type : String
  text : String

/-- The value returned by the call-tool handler on success. -/
structure CallToolResult where
  content : List CallContent

/-- The tool descriptor object the list-tools handler builds from one
action.  It is modelled as a JSON object so that the advertised fields are
exactly the ones listed here; in particular there is no `outputSchema`
member (it is commented out in the source). -/
def toolDescriptor (action : Action) : Json :=
  .obj
    [("inputSchema", action.schema.input),
     ("name", .str action.name),
     ("description", .str action.description),
     ("annotations", .obj
        [("title", .str action.title),
         ("destructiveHint", .bool action.attributes.destructive),
         ("idempotentHint", .bool action.attributes.idempotent),
         ("readOnlyHint", .bool action.attributes.readOnly),
         ("openWorldHint", .bool false)])]

/-- The `ListToolsRequestSchema` handler installed by `McpService.getServer`:
list the actions under the session credential, emit the `mcp-tool-discovery`
event, and map every action to its tool descriptor.  A listing failure
propagates (this handler has no `handleErrors` wrapper). -/
def listToolsHandler (actions : ActionsService) (credentials : Credential) :
    Except Err (List Json) × List Ev :=
  match actions.listResult credentials with
  | .error e => (.error e, [.callActionsList credentials])
  | .ok acts =>
      (.ok (acts.map toolDescriptor),
       [.callActionsList credentials,
        .create 0 "mcp-tool-discovery" "low"
          [("toolCount", .num acts.length),
           ("principal", .str credentials.userEntityRef)]])

/-- The `CallToolRequestSchema` handler installed by `McpService.getServer`,
wrapped in `handleErrors`: create the `mcp-tool-execution-request` event
(handle 0), re-list the actions, resolve the requested tool by name (absent
tool: emit `mcp-tool-not-found` and throw `NotFoundError`), invoke the
backend, and complete handle 0 as success with the wrapped result, or as
failure when the listing, the resolution or the invocation failed. -/
def callToolHandler (actions : ActionsService) (credentials : Credential)
    (name : String) (arguments : Option Json) :
    Except McpErr CallToolResult × List Ev :=
  let inputSize : Int := (jsonStringify (arguments.getD (Json.obj []))).length
  let e0 : Ev := .create 0 "mcp-tool-execution-request" "medium"
    [("toolName", .str name),
     ("principal", .str credentials.userEntityRef),
     ("inputSize", .num inputSize)]
  match actions.listResult credentials with
  | .error e =>
      (handleErrors (.error e),
       [e0, .callActionsList credentials, .evFail 0 e.name e.message])
  | .ok acts =>
      match acts.find? (fun a => a.name == name) with
      | none =>
          let notFoundErr : Err :=
            ⟨"NotFoundError", "Action \"" ++ name ++ "\" not found"⟩
          (handleErrors (.error notFoundErr),
           [e0, .callActionsList credentials,
            .create 1 "mcp-tool-not-found" "medium"
              [("toolName", .str name),
               ("principal", .str credentials.userEntityRef)],
            .evFail 0 notFoundErr.name notFoundErr.message])
      | some action =>
          match actions.invokeResult action.id arguments credentials with
          | .error e =>
              (handleErrors (.error e),
               [e0, .callActionsList credentials,
                .callActionsInvoke action.id arguments credentials,
                .evFail 0 e.name e.message])
          | .ok output =>
              let outputSize : Int := (jsonStringify output).length
              (.ok ⟨[⟨"text",
                      String.intercalate "\n"
                        ["```json", jsonStringifyPretty output, "```"]⟩]⟩,
               [e0, .callActionsList credentials,
                .callActionsInvoke action.id arguments credentials,
                .evSuccess 0
                  [("outputSize", .num outputSize),
                   ("principal", .str credentials.userEntityRef)]])

/-! The transport routers (`createStreamableRouter.ts`). -/

/-- The inbound HTTP request, reduced to the members the routers read: the
presence of an `authorization` header (audit metadata only) and, for the SSE
side channel, the `sessionId` query parameter (`none` when absent; the empty
string is a present-but-empty parameter, which is falsy in JavaScript). -/
structure HttpRequest where
  hasAuthHeader : Bool := false
  sessionIdParam : Option String := none

/-- JavaScript truthiness of `req.query.sessionId as string`: falsy when
`undefined` or the empty string. -/
def jsFalsyStr : Option String → Bool
  | none => true
  | some s => s = ""

/-- An optional string rendered into audit metadata; `undefined` members are
modelled as JSON null. -/
def optStr : Option String → Json
  | some s => .str s
  | none => .null

/-- Environment of one `POST /` exchange on the streamable router: the
outcome of `httpAuth.credentials`, of `server.connect`, and of
`transport.handleRequest`; the client id produced by `randomUUID`; and
whether response headers had been sent by the time a `handleRequest` failure
reaches the catch block. -/
structure StreamableEnv where
  credentialsResult : Except Err Credential
  connectResult : Except Err Unit
  handleRequestResult : Except Err Unit
  clientId : String
  headersSentOnFailure : Bool

/-- The client-visible outcome of one streamable `POST /` exchange. -/
inductive StreamableResponse where
  | transportHandled
  | errorJson (status : Nat) (body : Json)
  | suppressed

/-- The fixed JSON-RPC envelope the streamable catch block serializes. -/
def internalErrorEnvelope : Json :=
  .obj
    [("jsonrpc", .str "2.0"),
     ("error", .obj
        [("code", .num (-32603)),
         ("message", .str "Internal server error")]),
     ("id", .null)]

/-- The catch block of the streamable `POST /` handler: emit the
`mcp-http-error` event (handle `h`), serialize the fixed internal-error
envelope when no headers were sent yet, and fail the error event's own
handle. -/
def streamableCatch (h : Nat) (clientId : Option String)
    (credentials : Option Credential) (headersSent : Bool) (e : Err)
    (preTrace : List Ev) : StreamableResponse × List Ev :=
  let response :=
    if headersSent then StreamableResponse.suppressed
    else StreamableResponse.errorJson 500 internalErrorEnvelope
  (response,
   preTrace ++
    [.create h (auditCreateEventId (some "http-error")) "high"
      [("transport", .str "streamable"),
       ("clientId", optStr clientId),
       ("errorType", .str e.name),
       ("errorMessage", .str e.message),
       ("statusCode", .num 500),
       ("jsonrpcCode", .num (-32603)),
       ("principal", optStr (credentials.map Credential.userEntityRef))],
     .evFail h e.name e.message])

/-- The streamable `POST /` handler: create the `mcp-auth-attempt` event
(handle 0), resolve credentials, mark the attempt successful, connect a
fresh server/transport pair, create `mcp-connection-established` (handle 1),
hand the exchange to the transport and mark the connection event successful;
any failure falls into `streamableCatch`.  The `res.on('close')` callback
(connection-closed audit, transport/server teardown) fires outside the
exchange and is not modelled. -/
def streamablePost (env : StreamableEnv) (req : HttpRequest) :
    StreamableResponse × List Ev :=
  let e0 : Ev := .create 0 (auditCreateEventId (some "auth-attempt")) "medium"
    [("transport", .str "streamable"),
     ("hasAuthHeader", .bool req.hasAuthHeader)]
  match env.credentialsResult with
  | .error e => streamableCatch 1 none none false e [e0, .callCredentials]
  | .ok credentials =>
      let preTrace := [e0, .callCredentials,
        .evSuccess 0 [("principal", .str credentials.userEntityRef)]]
      match env.connectResult with
      | .error e =>
          streamableCatch 1 (some env.clientId) (some credentials) false e preTrace
      | .ok () =>
          let e1 : Ev := .create 1 (auditCreateEventId (some "connection-established"))
            "medium"
            [("transport", .str "streamable"),
             ("clientId", .str env.clientId),
             ("principal", .str credentials.userEntityRef)]
          match env.handleRequestResult with
          | .error e =>
              streamableCatch 2 (some env.clientId) (some credentials)
                env.headersSentOnFailure e (preTrace ++ [e1, .callHandleRequest])
          | .ok () =>
              (.transportHandled,
               preTrace ++ [e1, .callHandleRequest, .evSuccess 1 []])

/-- The fixed JSON-RPC envelope of the streamable `GET /` and `DELETE /`
handlers. -/
def methodNotAllowedEnvelope : Json :=
  .obj
    [("jsonrpc", .str "2.0"),
     ("error", .obj
        [("code", .num (-32000)),
         ("message", .str "Method not allowed.")]),
     ("id", .null)]

/-- The streamable `GET /` handler: one low-severity audit event, then a 405
response carrying the serialized method-not-allowed envelope.  No
collaborator is consulted. -/
def streamableGet : (Nat × Json) × List Ev :=
  ((405, methodNotAllowedEnvelope),
   [.create 0 (auditCreateEventId (some "method-not-allowed")) "low"
      [("method", .str "GET"),
       ("statusCode", .num 405),
       ("jsonrpcCode", .num (-32000))]])

/-- The streamable `DELETE /` handler, identical to `streamableGet` except
for the `method` metadata. -/
def streamableDelete : (Nat × Json) × List Ev :=
  ((405, methodNotAllowedEnvelope),
   [.create 0 (auditCreateEventId (some "method-not-allowed")) "low"
      [("method", .str "DELETE"),
       ("statusCode", .num 405),
       ("jsonrpcCode", .num (-32000))]])

/-! The legacy SSE router (`createSseRouter`). -/

/-- The session registry `transportsToSessionId`: a JavaScript `Map` from
session id to the transport object, modelled as an association list with
`Map.set` replace-or-append semantics; the transport object itself is an
opaque handle. -/
abbrev SessionRegistry := List (String × Nat)

/-- `Map.prototype.set`: replace the value under an existing key, otherwise
append the new entry. -/
def mapSet (m : SessionRegistry) (k : String) (v : Nat) : SessionRegistry :=
  match m with
  | [] => [(k, v)]
  | (k', v') :: rest => if k' = k then (k, v) :: rest else (k', v') :: mapSet rest k v

/-- Environment of one SSE `GET /` exchange: the outcome of
`httpAuth.credentials`, the session id and transport handle produced by
`new SSEServerTransport`, and the outcome of `server.connect`. -/
structure SseEnv where
  credentialsResult : Except Err Credential
  sessionId : String
  transport : Nat
  connectResult : Except Err Unit

/-- The outcome of one SSE `GET /` exchange: either the event stream is
open, or the failure was re-thrown to the framework's own fault handling
(no protocol response serialized by this handler). -/
inductive SseGetOutcome where
  | streamOpened
  | propagated (e : Err)
deriving DecidableEq

/-- The SSE `GET /` handler: create `mcp-auth-attempt` (handle 0), resolve
credentials and mark the attempt successful, register the transport under
its session id, create `mcp-connection-established` (handle 1), connect the
server and mark the connection event successful; a failure emits
`mcp-connection-error` and re-throws.  The `res.on('close')` callback
(connection-closed audit, registry removal) fires outside the exchange and
is not modelled. -/
def sseGet (env : SseEnv) (req : HttpRequest) (registry : SessionRegistry) :
    SseGetOutcome × SessionRegistry × List Ev :=
  let e0 : Ev := .create 0 (auditCreateEventId (some "auth-attempt")) "medium"
    [("transport", .str "sse"),
     ("hasAuthHeader", .bool req.hasAuthHeader)]
  match env.credentialsResult with
  | .error e =>
      (.propagated e, registry,
       [e0, .callCredentials,
        .create 1 (auditCreateEventId (some "connection-error")) "high"
          [("transport", .str "sse"),
           ("errorType", .str e.name),
           ("errorMessage", .str e.message),
           ("principal", Json.null)]])
  | .ok credentials =>
      let registry' := mapSet registry env.sessionId env.transport
      let preTrace := [e0, .callCredentials,
        .evSuccess 0 [("principal", .str credentials.userEntityRef)],
        .create 1 (auditCreateEventId (some "connection-established")) "medium"
          [("transport", .str "sse"),
           ("sessionId", .str env.sessionId),
           ("principal", .str credentials.userEntityRef)]]
      match env.connectResult with
      | .error e =>
          (.propagated e, registry',
           preTrace ++
            [.create 2 (auditCreateEventId (some "connection-error")) "high"
              [("transport", .str "sse"),
               ("errorType", .str e.name),
               ("errorMessage", .str e.message),
               ("principal", .str credentials.userEntityRef)]])
      | .ok () =>
          (.streamOpened, registry', preTrace ++ [.evSuccess 1 []])

/-- The client-visible outcome of one SSE `POST /messages` call: a 400
plain-text rejection, or the body forwarded to the registered transport. -/
inductive MessagesResponse where
  | badRequest (status : Nat) (contentType : String) (body : String)
  | forwarded (transport : Nat)
deriving DecidableEq

/-- The SSE `POST /messages` handler: a falsy (`undefined` or empty)
`sessionId` query parameter is rejected before any registry lookup; a
non-falsy id is looked up in the registry and either forwarded to its
transport or rejected with a body naming the id.  The registry is returned
so that its preservation can be stated. -/
def postMessages (registry : SessionRegistry) (req : HttpRequest) :
    MessagesResponse × SessionRegistry × List Ev :=
  if jsFalsyStr req.sessionIdParam then
    (.badRequest 400 "text/plain" "sessionId is required", registry,
     [.create 0 (auditCreateEventId (some "invalid-session")) "medium"
        [("error", .str "sessionId is required"),
         ("statusCode", .num 400)]])
  else
    let sessionId := req.sessionIdParam.getD ""
    match registry.lookup sessionId with
    | some transport =>
        (.forwarded transport, registry, [.callHandlePostMessage sessionId])
    | none =>
        (.badRequest 400 "text/plain"
          ("No transport found for sessionId \"" ++ sessionId ++ "\""), registry,
         [.create 0 (auditCreateEventId (some "invalid-session")) "medium"
            [("sessionId", .str sessionId),
             ("error", .str "No transport found for sessionId"),
             ("statusCode", .num 400)]])

/-! Helper lemmas about the kebab-case pipeline. -/

/-- A character that no stage of the kebab-case pipeline rewrites: neither a
capital nor a word separator. -/
def cleanChar (c : Char) : Bool :=
  !(isAsciiUpper c) && !(isWordSep c)

theorem toNat_toLowerChar {c : Char} (h : isAsciiUpper c = true) :
    (toLowerChar c).toNat = c.toNat + 32 := by
  simp only [isAsciiUpper, Bool.and_eq_true, decide_eq_true_eq] at h
  have hvalid : (c.toNat + 32).isValidChar := Or.inl (by omega)
  simp only [toLowerChar, isAsciiUpper, Bool.and_eq_true, decide_eq_true_eq]
  rw [if_pos (by omega)]
  rw [Char.ofNat, dif_pos hvalid]
  rfl

theorem cleanChar_toLowerChar {c : Char} (h : isAsciiUpper c = true) :
    cleanChar (toLowerChar c) = true := by
  have hn := toNat_toLowerChar h
  simp only [isAsciiUpper, Bool.and_eq_true, decide_eq_true_eq] at h
  simp only [cleanChar, isAsciiUpper, isWordSep, isJsSpace, hn, Bool.and_eq_true,
    Bool.not_eq_true', Bool.or_eq_false_iff, Bool.and_eq_false_iff,
    decide_eq_false_iff_not]
  omega

theorem cleanChar_not_upper {c : Char} (h : cleanChar c = true) :
    isAsciiUpper c = false := by
  simp only [cleanChar, Bool.and_eq_true, Bool.not_eq_true'] at h
  exact h.1

theorem cleanChar_not_sep {c : Char} (h : cleanChar c = true) :
    isWordSep c = false := by
  simp only [cleanChar, Bool.and_eq_true, Bool.not_eq_true'] at h
  exact h.2

theorem cleanChar_not_space {c : Char} (h : cleanChar c = true) :
    isJsSpace c = false := by
  have := cleanChar_not_sep h
  simp only [isWordSep, Bool.or_eq_false_iff] at this
  exact this.1

theorem splitCaps_of_clean : ∀ l : List Char, (∀ c ∈ l, cleanChar c = true) →
    splitCaps l = l
  | [], _ => rfl
  | [c], _ => rfl
  | c :: c' :: rest, h => by
      have hc : isAsciiUpper c = false :=
        cleanChar_not_upper (h c (by simp))
      have hrest : splitCaps (c' :: rest) = c' :: rest :=
        splitCaps_of_clean (c' :: rest) (fun x hx => h x (by simp [hx]))
      simp [splitCaps, hc, hrest]

theorem lowerCapRuns_of_noUpper : ∀ l : List Char,
    (∀ c ∈ l, isAsciiUpper c = false) → lowerCapRuns l = l
  | [], _ => rfl
  | c :: rest, h => by
      have hc : isAsciiUpper c = false := h c (by simp)
      have hrest := lowerCapRuns_of_noUpper rest (fun x hx => h x (by simp [hx]))
      simp [lowerCapRuns, hc, hrest]

theorem dropWhile_of_none {p : Char → Bool} : ∀ l : List Char,
    (∀ c ∈ l, p c = false) → l.dropWhile p = l
  | [], _ => rfl
  | c :: rest, h => by
      simp [List.dropWhile_cons, h c (by simp)]

theorem trimBoth_of_noSpace {l : List Char} (h : ∀ c ∈ l, isJsSpace c = false) :
    trimBoth l = l := by
  unfold trimBoth
  rw [dropWhile_of_none l h,
    dropWhile_of_none l.reverse (fun c hc => h c (List.mem_reverse.mp hc)),
    List.reverse_reverse]

theorem splitSeps_of_noSep : ∀ l : List Char,
    (∀ c ∈ l, isWordSep c = false) → splitSeps l = [l]
  | [], _ => rfl
  | c :: rest, h => by
      have hc : isWordSep c = false := h c (by simp)
      have hrest := splitSeps_of_noSep rest (fun x hx => h x (by simp [hx]))
      simp [splitSeps, hc, hrest, consHead]

theorem joinHyphen_single (l : List Char) : joinHyphen [l] = l := rfl

/-- On a string of clean characters every pipeline stage is the identity. -/
theorem kebabCase_of_clean (l : List Char) (h : ∀ c ∈ l, cleanChar c = true) :
    kebabCase ⟨l⟩ = ⟨l⟩ := by
  unfold kebabCase
  rw [splitCaps_of_clean l h,
    lowerCapRuns_of_noUpper l (fun c hc => cleanChar_not_upper (h c hc)),
    trimBoth_of_noSpace (fun c hc => cleanChar_not_space (h c hc)),
    splitSeps_of_noSep l (fun c hc => cleanChar_not_sep (h c hc)),
    joinHyphen_single]

theorem mem_lowerCapRuns_clean : ∀ l : List Char,
    (∀ c ∈ lowerCapRuns l, isAsciiUpper c = true → cleanChar c = true) ∧
    (∀ c ∈ lowerCapRunTail l, isAsciiUpper c = true → cleanChar c = true)
  | [] => ⟨by simp [lowerCapRuns], by simp [lowerCapRunTail]⟩
  | c :: rest => by
      obtain ⟨ih1, ih2⟩ := mem_lowerCapRuns_clean rest
      constructor
      · intro x hx hup
        by_cases hc : isAsciiUpper c = true
        · simp only [lowerCapRuns, hc, ite_true, List.mem_cons] at hx
          rcases hx with hx | hx | hx
          · subst hx; simp [isAsciiUpper] at hup
          · subst hx; exact cleanChar_toLowerChar hc
          · exact ih2 x hx hup
        · simp only [Bool.not_eq_true] at hc
          simp only [lowerCapRuns, hc, Bool.false_eq_true, ite_false,
            List.mem_cons] at hx
          rcases hx with hx | hx
          · subst hx; rw [hc] at hup; exact absurd hup (by simp)
          · exact ih1 x hx hup
      · intro x hx hup
        by_cases hc : isAsciiUpper c = true
        · simp only [lowerCapRunTail, hc, ite_true, List.mem_cons] at hx
          rcases hx with hx | hx
          · subst hx; exact cleanChar_toLowerChar hc
          · exact ih2 x hx hup
        · simp only [Bool.not_eq_true] at hc
          simp only [lowerCapRunTail, hc, Bool.false_eq_true, ite_false,
            List.mem_cons] at hx
          rcases hx with hx | hx
          · subst hx; rw [hc] at hup; exact absurd hup (by simp)
          · exact ih1 x hx hup

theorem mem_of_mem_dropWhile {p : Char → Bool} {c : Char} :
    ∀ l : List Char, c ∈ l.dropWhile p → c ∈ l := by
  intro l h
  exact (List.dropWhile_sublist (l := l) p).mem h

theorem mem_of_mem_trimBoth {c : Char} {l : List Char} (h : c ∈ trimBoth l) :
    c ∈ l := by
  unfold trimBoth at h
  rw [List.mem_reverse] at h
  have h1 := mem_of_mem_dropWhile _ h
  rw [List.mem_reverse] at h1
  exact mem_of_mem_dropWhile _ h1

theorem mem_consHead {x : Char} {w : List Char} {c : Char} :
    ∀ ws : List (List Char), w ∈ consHead c ws → x ∈ w →
      x = c ∨ ∃ w' ∈ ws, x ∈ w'
  | [], hw, hx => by
      simp only [consHead, List.mem_singleton] at hw
      subst hw
      simp only [List.mem_singleton] at hx
      exact Or.inl hx
  | w₀ :: rest, hw, hx => by
      simp only [consHead, List.mem_cons] at hw
      rcases hw with hw | hw
      · subst hw
        rcases List.mem_cons.mp hx with hx | hx
        · exact Or.inl hx
        · exact Or.inr ⟨w₀, by simp, hx⟩
      · exact Or.inr ⟨w, by simp [hw], hx⟩

theorem mem_splitSeps : ∀ (l : List Char) (w : List Char) (x : Char),
    ((w ∈ splitSeps l → x ∈ w → x ∈ l ∧ isWordSep x = false) ∧
     (w ∈ splitSepsSkip l → x ∈ w → x ∈ l ∧ isWordSep x = false))
  | [], w, x => by
      constructor <;> intro hw hx <;>
        · simp only [splitSeps, splitSepsSkip, List.mem_singleton] at hw
          subst hw
          simp at hx
  | c :: rest, w, x => by
      constructor
      · intro hw hx
        by_cases hc : isWordSep c = true
        · simp only [splitSeps, hc, ite_true, List.mem_cons] at hw
          rcases hw with hw | hw
          · subst hw; simp at hx
          · obtain ⟨hmem, hsep⟩ := (mem_splitSeps rest w x).2 hw hx
            exact ⟨by simp [hmem], hsep⟩
        · simp only [Bool.not_eq_true] at hc
          simp only [splitSeps, hc, Bool.false_eq_true, ite_false] at hw
          rcases mem_consHead _ hw hx with hxc | ⟨w', hw', hx'⟩
          · subst hxc; exact ⟨by simp, hc⟩
          · obtain ⟨hmem, hsep⟩ := (mem_splitSeps rest w' x).1 hw' hx'
            exact ⟨by simp [hmem], hsep⟩
      · intro hw hx
        by_cases hc : isWordSep c = true
        · simp only [splitSepsSkip, hc, ite_true] at hw
          obtain ⟨hmem, hsep⟩ := (mem_splitSeps rest w x).2 hw hx
          exact ⟨by simp [hmem], hsep⟩
        · simp only [Bool.not_eq_true] at hc
          simp only [splitSepsSkip, hc, Bool.false_eq_true, ite_false] at hw
          rcases mem_consHead _ hw hx with hxc | ⟨w', hw', hx'⟩
          · subst hxc; exact ⟨by simp, hc⟩
          · obtain ⟨hmem, hsep⟩ := (mem_splitSeps rest w' x).1 hw' hx'
            exact ⟨by simp [hmem], hsep⟩

theorem mem_joinHyphen : ∀ (ws : List (List Char)) (x : Char),
    x ∈ joinHyphen ws → (∃ w ∈ ws, x ∈ w) ∨ x = '-'
  | [], x, h => by simp [joinHyphen] at h
  | [w], x, h => Or.inl ⟨w, by simp, h⟩
  | w :: w' :: rest, x, h => by
      simp only [joinHyphen, List.mem_append, List.mem_cons] at h
      rcases h with h | h | h
      · exact Or.inl ⟨w, by simp, h⟩
      · exact Or.inr h
      · rcases mem_joinHyphen (w' :: rest) x h with ⟨w'', hw'', hx⟩ | hx
        · exact Or.inl ⟨w'', by simp [List.mem_cons.mp hw''], hx⟩
        · exact Or.inr hx

/-- Every character of a kebab-cased string is clean. -/
theorem kebabCase_clean (s : String) : ∀ c ∈ (kebabCase s).data, cleanChar c = true := by
  intro c hc
  unfold kebabCase at hc
  rcases mem_joinHyphen _ c hc with ⟨w, hw, hcw⟩ | hdash
  · obtain ⟨hmem, hsep⟩ := (mem_splitSeps _ w c).1 hw hcw
    have hmem' := mem_of_mem_trimBoth hmem
    have hup : isAsciiUpper c = false := by
      by_cases h : isAsciiUpper c = true
      · exact cleanChar_not_upper
          ((mem_lowerCapRuns_clean (splitCaps s.data)).1 c hmem' h)
      · simpa using h
    simp [cleanChar, hup, hsep]
  · subst hdash; decide

/-- `just-kebab-case` is idempotent (on the modelled character classes). -/
theorem kebabCase_idem (s : String) : kebabCase (kebabCase s) = kebabCase s :=
  kebabCase_of_clean (kebabCase s).data (kebabCase_clean s)

theorem jsStartsWith_append_self (p r : String) : jsStartsWith (p ++ r) p = true := by
  simp only [jsStartsWith, String.data_append, List.isPrefixOf_iff_prefix]
  exact List.prefix_append _ _

theorem kebabCase_mcp_append (k : String)
    (h : ∀ c ∈ k.data, cleanChar c = true) :
    kebabCase ("mcp-" ++ k) = "mcp-" ++ k := by
  have hclean : ∀ c ∈ ("mcp-" ++ k).data, cleanChar c = true := by
    intro c hc
    rw [String.data_append] at hc
    rcases List.mem_append.mp hc with hc | hc
    · have hc' : c = 'm' ∨ c = 'c' ∨ c = 'p' ∨ c = '-' := by simpa using hc
      rcases hc' with rfl | rfl | rfl | rfl <;> decide
    · exact h c hc
  calc kebabCase ("mcp-" ++ k) = kebabCase ⟨("mcp-" ++ k).data⟩ := rfl
    _ = ⟨("mcp-" ++ k).data⟩ := kebabCase_of_clean _ hclean
    _ = "mcp-" ++ k := rfl

/-- C9: For every event id passed to the audit event creation helper, the
emitted event id is kebab-cased (a fixed point of `kebabCase`) and starts
with `mcp-`; the `mcp-` marker is added exactly when the kebab-cased input
does not already start with it, and an input that is already of the form
`mcp-<kebab-case>` is emitted unchanged. -/
theorem auditCreateEventId_normalization (eventId : Option String) :
    jsStartsWith (auditCreateEventId eventId) "mcp-" = true
    ∧ kebabCase (auditCreateEventId eventId) = auditCreateEventId eventId
    ∧ (∀ s : String, eventId = some s → s ≠ "" →
        jsStartsWith (kebabCase s) "mcp-" = false →
        auditCreateEventId eventId = "mcp-" ++ kebabCase s)
    ∧ (∀ s : String, eventId = some s → kebabCase s = s →
        jsStartsWith s "mcp-" = true →
        auditCreateEventId eventId = s) := by
  cases eventId with
  | none =>
      refine ⟨by decide, by decide, ?_, ?_⟩ <;>
        · intro s h
          cases h
  | some s =>
      by_cases hs : s = ""
      · subst hs
        refine ⟨by decide, by decide, ?_, ?_⟩
        · intro s' heq hne
          cases heq
          exact absurd rfl hne
        · intro s' heq hfix hstart
          cases heq
          exact absurd hstart (by decide)
      · have hout : auditCreateEventId (some s) =
            if jsStartsWith (kebabCase s) "mcp-" then kebabCase s
            else "mcp-" ++ kebabCase s := by
          simp [auditCreateEventId, hs]
        by_cases hpre : jsStartsWith (kebabCase s) "mcp-" = true
        · rw [hout, if_pos hpre]
          refine ⟨hpre, kebabCase_idem s, ?_, ?_⟩
          · intro s' heq hne hfalse
            cases heq
            rw [hpre] at hfalse
            cases hfalse
          · intro s' heq hfix _
            cases heq
            exact hfix
        · have hpre' : jsStartsWith (kebabCase s) "mcp-" = false := by
            simpa using hpre
          rw [hout, if_neg (by simp [hpre'])]
          refine ⟨jsStartsWith_append_self _ _,
            kebabCase_mcp_append _ (kebabCase_clean s), ?_, ?_⟩
          · intro s' heq _ _
            cases heq
            rfl
          · intro s' heq hfix hstart
            cases heq
            rw [hfix] at hpre'
            rw [hstart] at hpre'
            cases hpre'

/-- C9 witness: concrete normalizations — an id already of the form
`mcp-<kebab-case>` passes through unchanged, and a non-prefixed id is
kebab-cased and prefixed. -/
theorem auditCreateEventId_normalization_witness :
    auditCreateEventId (some "mcp-tool-not-found") = "mcp-tool-not-found"
    ∧ auditCreateEventId (some "HTTP error") = "mcp-" ++ kebabCase "HTTP error" :=
  ⟨(auditCreateEventId_normalization (some "mcp-tool-not-found")).2.2.2
      "mcp-tool-not-found" rfl (by decide) (by decide),
   (auditCreateEventId_normalization (some "HTTP error")).2.2.1
      "HTTP error" rfl (by decide) (by decide)⟩

/-! Concrete sample data used by the witness theorems. -/

/-- A sample action, for concrete witnesses. -/
def sampleAction : Action where
  id := "action-1"
  name := "create-repo"
  description := "creates a repository"
  title := "Create repo"
  schema := ⟨.obj [("name", .str "string")], .obj []⟩
  attributes := ⟨false, true, false⟩

/-- A sample credential, for concrete witnesses. -/
def sampleCredential : Credential := ⟨"user:default/alice"⟩

/-- A sample actions service exposing `sampleAction`, whose invocation
succeeds with a fixed JSON object. -/
def sampleService : ActionsService where
  listResult := fun _ => .ok [sampleAction]
  invokeResult := fun _ _ _ => .ok (.obj [("url", .str "https://example.test/r")])

/-- A sample actions service whose listing fails. -/
def sampleFailingService : ActionsService where
  listResult := fun _ => .error ⟨"TypeError", "backend unreachable"⟩
  invokeResult := fun _ _ _ => .error ⟨"TypeError", "backend unreachable"⟩

theorem exOk_handleErrors {α : Type} (e : Err) :
    exOk (handleErrors (α := α) (.error e)) = false := by
  simp only [handleErrors]
  split <;> rfl

/-- C1: For every tool invocation, the handler performs one fresh catalog
listing under the session's credential and searches it by tool name; when no
entry matches, it emits the `mcp-tool-not-found` audit event, fails with a
not-found classification whose message contains the literal tool name, and
never calls the backend invoke operation. -/
theorem callTool_not_found (actions : ActionsService) (credentials : Credential)
    (name : String) (arguments : Option Json) (acts : List Action)
    (hlist : actions.listResult credentials = .ok acts)
    (habsent : ∀ a ∈ acts, a.name ≠ name) :
    (callToolHandler actions credentials name arguments).2.filter isCallList
        = [.callActionsList credentials]
    ∧ Ev.create 1 "mcp-tool-not-found" "medium"
        [("toolName", .str name), ("principal", .str credentials.userEntityRef)]
        ∈ (callToolHandler actions credentials name arguments).2
    ∧ (callToolHandler actions credentials name arguments).1
        = .error (.notFound ("Action \"" ++ name ++ "\" not found"))
    ∧ (∃ pre post, "Action \"" ++ name ++ "\" not found" = pre ++ name ++ post)
    ∧ (callToolHandler actions credentials name arguments).2.countP isCallInvoke = 0 := by
  have hfind : acts.find? (fun a => a.name == name) = none := by
    rw [List.find?_eq_none]
    intro a ha
    simpa using habsent a ha
  refine ⟨?_, ?_, ?_, ⟨"Action \"", "\" not found", rfl⟩, ?_⟩ <;>
    simp [callToolHandler, hlist, hfind, handleErrors, isCallList, isCallInvoke,
      List.countP_cons]

/-- C1 witness: invoking the absent tool `does-not-exist` against the sample
service. -/
theorem callTool_not_found_witness :
    sampleService.listResult sampleCredential = .ok [sampleAction]
    ∧ (∀ a ∈ [sampleAction], a.name ≠ "does-not-exist")
    ∧ (callToolHandler sampleService sampleCredential "does-not-exist" none).1
        = .error (.notFound ("Action \"" ++ "does-not-exist" ++ "\" not found"))
    ∧ (callToolHandler sampleService sampleCredential "does-not-exist" none).2.countP
        isCallInvoke = 0 :=
  ⟨rfl, by decide,
   (callTool_not_found sampleService sampleCredential "does-not-exist" none
      [sampleAction] rfl (by decide)).2.2.1,
   (callTool_not_found sampleService sampleCredential "does-not-exist" none
      [sampleAction] rfl (by decide)).2.2.2.2⟩

/-- C2: On every tool invocation, the `mcp-tool-execution-request` handle
(handle 0) is completed exactly once: as success when the invocation returns
normally and as failure when a later step fails — never both, never zero. -/
theorem callTool_one_completion (actions : ActionsService) (credentials : Credential)
    (name : String) (arguments : Option Json) :
    (callToolHandler actions credentials name arguments).2.countP (completesHandle 0) = 1
    ∧ (exOk (callToolHandler actions credentials name arguments).1 = true →
        (callToolHandler actions credentials name arguments).2.countP
          (successOfHandle 0) = 1)
    ∧ (exOk (callToolHandler actions credentials name arguments).1 = false →
        (callToolHandler actions credentials name arguments).2.countP
            (failOfHandle 0) = 1
        ∧ (callToolHandler actions credentials name arguments).2.countP
            (successOfHandle 0) = 0) := by
  cases hlist : actions.listResult credentials with
  | error e =>
      simp [callToolHandler, hlist, exOk_handleErrors, completesHandle,
        successOfHandle, failOfHandle, List.countP_cons]
  | ok acts =>
      cases hfind : acts.find? (fun a => a.name == name) with
      | none =>
          simp [callToolHandler, hlist, hfind, exOk_handleErrors, completesHandle,
            successOfHandle, failOfHandle, List.countP_cons]
      | some action =>
          cases hinvoke : actions.invokeResult action.id arguments credentials with
          | error e =>
              simp [callToolHandler, hlist, hfind, hinvoke, exOk_handleErrors,
                completesHandle, successOfHandle, failOfHandle, List.countP_cons]
          | ok output =>
              simp [callToolHandler, hlist, hfind, hinvoke, exOk, completesHandle,
                successOfHandle, failOfHandle, List.countP_cons]

/-- C2 witness: a successful invocation and a failed listing, each with
exactly one completion of the execution-request handle. -/
theorem callTool_one_completion_witness :
    (callToolHandler sampleService sampleCredential "create-repo" none).2.countP
        (completesHandle 0) = 1
    ∧ (callToolHandler sampleService sampleCredential "create-repo" none).2.countP
        (successOfHandle 0) = 1
    ∧ (callToolHandler sampleFailingService sampleCredential "create-repo" none).2.countP
        (failOfHandle 0) = 1 :=
  ⟨(callTool_one_completion sampleService sampleCredential "create-repo" none).1,
   (callTool_one_completion sampleService sampleCredential "create-repo" none).2.1
      (by decide),
   ((callTool_one_completion sampleFailingService sampleCredential "create-repo"
      none).2.2 (by decide)).1⟩

/-- C3: For every action in a successful backend listing the list handler
returns its tool descriptor: same name, the action's input schema, the
annotation object mirroring title and the destructive/idempotent/readOnly
attributes as hints, `openWorldHint` false, and no `outputSchema` member. -/
theorem listTools_descriptors (actions : ActionsService) (credentials : Credential)
    (acts : List Action)
    (hlist : actions.listResult credentials = .ok acts) :
    (listToolsHandler actions credentials).1 = .ok (acts.map toolDescriptor)
    ∧ ∀ a ∈ acts,
        (toolDescriptor a).get "name" = some (.str a.name)
        ∧ (toolDescriptor a).get "inputSchema" = some a.schema.input
        ∧ (toolDescriptor a).get "description" = some (.str a.description)
        ∧ (toolDescriptor a).get "annotations" = some (.obj
            [("title", .str a.title),
             ("destructiveHint", .bool a.attributes.destructive),
             ("idempotentHint", .bool a.attributes.idempotent),
             ("readOnlyHint", .bool a.attributes.readOnly),
             ("openWorldHint", .bool false)])
        ∧ (toolDescriptor a).get "outputSchema" = none := by
  refine ⟨by simp [listToolsHandler, hlist], ?_⟩
  intro a _
  refine ⟨rfl, rfl, rfl, rfl, rfl⟩

/-- C3 witness: the sample service's listing yields the descriptor of
`sampleAction` with mirrored annotation hints and no output schema. -/
theorem listTools_descriptors_witness :
    sampleService.listResult sampleCredential = .ok [sampleAction]
    ∧ (listToolsHandler sampleService sampleCredential).1
        = .ok ([sampleAction].map toolDescriptor)
    ∧ (toolDescriptor sampleAction).get "outputSchema" = none :=
  ⟨rfl,
   (listTools_descriptors sampleService sampleCredential [sampleAction] rfl).1,
   ((listTools_descriptors sampleService sampleCredential [sampleAction] rfl).2
      sampleAction (List.mem_singleton.mpr rfl)).2.2.2.2⟩

/-- C4: Every successful invocation returns a content array with exactly one
element of type `text`, whose text is the fenced JSON block — the strings
three-backticks-json, the pretty-printed serialization of the output, and
three-backticks — joined by newlines. -/
theorem callTool_success_content (actions : ActionsService) (credentials : Credential)
    (name : String) (arguments : Option Json) (acts : List Action) (action : Action)
    (output : Json)
    (hlist : actions.listResult credentials = .ok acts)
    (hfind : acts.find? (fun a => a.name == name) = some action)
    (hinvoke : actions.invokeResult action.id arguments credentials = .ok output) :
    (callToolHandler actions credentials name arguments).1 =
      .ok ⟨[⟨"text",
        String.intercalate "\n" ["```json", jsonStringifyPretty output, "```"]⟩]⟩ := by
  simp [callToolHandler, hlist, hfind, hinvoke]

/-- C4 witness: invoking `create-repo` on the sample service, whose backend
output is a fixed JSON object. -/
theorem callTool_success_content_witness :
    [sampleAction].find? (fun a => a.name == "create-repo") = some sampleAction
    ∧ sampleService.invokeResult sampleAction.id none sampleCredential
        = .ok (.obj [("url", .str "https://example.test/r")])
    ∧ (callToolHandler sampleService sampleCredential "create-repo" none).1 =
        .ok ⟨[⟨"text",
          String.intercalate "\n"
            ["```json",
             jsonStringifyPretty (.obj [("url", .str "https://example.test/r")]),
             "```"]⟩]⟩ :=
  ⟨rfl, rfl,
   callTool_success_content sampleService sampleCredential "create-repo" none
     [sampleAction] sampleAction (.obj [("url", .str "https://example.test/r")])
     rfl rfl rfl⟩

/-! Concrete router environments for witnesses and counterexamples, plus the
evaluated event-id normalizations the router theorems quote literally. -/

/-- A sample thrown error. -/
def sampleErr : Err := ⟨"AuthenticationError", "missing token"⟩

/-- A request carrying no authorization header and no session id. -/
def sampleReq : HttpRequest := ⟨false, none⟩

/-- A streamable exchange whose credential resolution fails. -/
def streamAuthFailEnv : StreamableEnv :=
  ⟨.error sampleErr, .ok (), .ok (), "client-1", false⟩

/-- A streamable exchange that succeeds end to end. -/
def streamOkEnv : StreamableEnv :=
  ⟨.ok sampleCredential, .ok (), .ok (), "client-1", false⟩

/-- A streamable exchange where `transport.handleRequest` fails after the
response headers were already sent. -/
def streamLateFailEnv : StreamableEnv :=
  ⟨.ok sampleCredential, .ok (), .error sampleErr, "client-1", true⟩

/-- An SSE stream-open exchange whose credential resolution fails. -/
def sseAuthFailEnv : SseEnv := ⟨.error sampleErr, "session-1", 7, .ok ()⟩

/-- An SSE stream-open exchange that succeeds. -/
def sseOkEnv : SseEnv := ⟨.ok sampleCredential, "session-1", 7, .ok ()⟩

theorem norm_auth_attempt :
    auditCreateEventId (some "auth-attempt") = "mcp-auth-attempt" := by decide

theorem norm_connection_established :
    auditCreateEventId (some "connection-established")
      = "mcp-connection-established" := by decide

theorem norm_http_error :
    auditCreateEventId (some "http-error") = "mcp-http-error" := by decide

theorem norm_connection_error :
    auditCreateEventId (some "connection-error") = "mcp-connection-error" := by decide

theorem norm_invalid_session :
    auditCreateEventId (some "invalid-session") = "mcp-invalid-session" := by decide

/-- C5: Every failure caught during a stateless `POST /` exchange emits an
`mcp-http-error` event of severity high whose metadata carries the
classified error type and message together with `statusCode` 500 and
`jsonrpcCode` -32603; the handler answers with HTTP 500 and the fixed
internal-error JSON-RPC envelope exactly when no response headers were sent
yet; and the client-visible payload is always one of the fixed response
shapes, so the raw error text never reaches the client. -/
theorem streamablePost_error_handling (env : StreamableEnv) (req : HttpRequest)
    (e : Err) :
    (env.credentialsResult = .error e →
      Ev.create 1 "mcp-http-error" "high"
          [("transport", .str "streamable"),
           ("clientId", Json.null),
           ("errorType", .str e.name),
           ("errorMessage", .str e.message),
           ("statusCode", .num 500),
           ("jsonrpcCode", .num (-32603)),
           ("principal", Json.null)] ∈ (streamablePost env req).2
      ∧ (streamablePost env req).1 = .errorJson 500 internalErrorEnvelope)
    ∧ (∀ credentials, env.credentialsResult = .ok credentials →
        env.connectResult = .error e →
        Ev.create 1 "mcp-http-error" "high"
            [("transport", .str "streamable"),
             ("clientId", .str env.clientId),
             ("errorType", .str e.name),
             ("errorMessage", .str e.message),
             ("statusCode", .num 500),
             ("jsonrpcCode", .num (-32603)),
             ("principal", .str credentials.userEntityRef)] ∈ (streamablePost env req).2
        ∧ (streamablePost env req).1 = .errorJson 500 internalErrorEnvelope)
    ∧ (∀ credentials, env.credentialsResult = .ok credentials →
        env.connectResult = .ok () → env.handleRequestResult = .error e →
        Ev.create 2 "mcp-http-error" "high"
            [("transport", .str "streamable"),
             ("clientId", .str env.clientId),
             ("errorType", .str e.name),
             ("errorMessage", .str e.message),
             ("statusCode", .num 500),
             ("jsonrpcCode", .num (-32603)),
             ("principal", .str credentials.userEntityRef)] ∈ (streamablePost env req).2
        ∧ (streamablePost env req).1 =
            (if env.headersSentOnFailure then .suppressed
             else .errorJson 500 internalErrorEnvelope))
    ∧ ((streamablePost env req).1 = .transportHandled
       ∨ (streamablePost env req).1 = .suppressed
       ∨ (streamablePost env req).1 = .errorJson 500 internalErrorEnvelope) := by
  refine ⟨?_, ?_, ?_, ?_⟩
  · intro herr
    simp [streamablePost, herr, streamableCatch, optStr, norm_http_error]
  · intro credentials hok hconn
    simp [streamablePost, hok, hconn, streamableCatch, optStr, norm_http_error]
  · intro credentials hok hconn hhandle
    constructor
    · simp [streamablePost, hok, hconn, hhandle, streamableCatch, optStr, norm_http_error]
    · by_cases hsent : env.headersSentOnFailure = true <;>
        simp [streamablePost, hok, hconn, hhandle, streamableCatch, hsent]
  · cases hcred : env.credentialsResult with
    | error e' => simp [streamablePost, hcred, streamableCatch]
    | ok credentials =>
        cases hconn : env.connectResult with
        | error e' => simp [streamablePost, hcred, hconn, streamableCatch]
        | ok u =>
            cases u
            cases hhandle : env.handleRequestResult with
            | error e' =>
                by_cases hsent : env.headersSentOnFailure = true <;>
                  simp [streamablePost, hcred, hconn, hhandle, streamableCatch, hsent]
            | ok u' =>
                cases u'
                simp [streamablePost, hcred, hconn, hhandle]

/-- C5 witness: an auth failure answers with the fixed envelope and records
the classified error in the `mcp-http-error` event; a late `handleRequest`
failure with headers already sent suppresses the response. -/
theorem streamablePost_error_handling_witness :
    ((streamablePost streamAuthFailEnv sampleReq).1
        = .errorJson 500 internalErrorEnvelope)
    ∧ Ev.create 1 "mcp-http-error" "high"
        [("transport", .str "streamable"),
         ("clientId", Json.null),
         ("errorType", .str "AuthenticationError"),
         ("errorMessage", .str "missing token"),
         ("statusCode", .num 500),
         ("jsonrpcCode", .num (-32603)),
         ("principal", Json.null)] ∈ (streamablePost streamAuthFailEnv sampleReq).2
    ∧ (streamablePost streamLateFailEnv sampleReq).1 = .suppressed :=
  ⟨((streamablePost_error_handling streamAuthFailEnv sampleReq sampleErr).1 rfl).2,
   ((streamablePost_error_handling streamAuthFailEnv sampleReq sampleErr).1 rfl).1,
   ((streamablePost_error_handling streamLateFailEnv sampleReq sampleErr).2.2.1
      sampleCredential rfl rfl rfl).2⟩

/-- C6 counterexample: with `?sessionId=` present but empty (the empty
string is falsy in JavaScript) and an empty registry, the id is "present
but not in the registry", yet the handler answers `sessionId is required`
rather than a body naming the offending id. -/
theorem postMessages_empty_id_counterexample :
    (postMessages [] ⟨false, some ""⟩).1
        = .badRequest 400 "text/plain" "sessionId is required"
    ∧ (postMessages [] ⟨false, some ""⟩).1
        ≠ .badRequest 400 "text/plain" "No transport found for sessionId \"\"" := by
  constructor
  · rfl
  · decide

/-- C6 (amended): a `POST /messages` call whose `sessionId` parameter is
absent or empty fails with HTTP 400 and plain-text `sessionId is required`
after emitting an `mcp-invalid-session` event, without consulting the
registry (its response and trace do not depend on it); a present, nonempty
id that is not in the registry fails with HTTP 400 and a plain-text body
naming that id after emitting an `mcp-invalid-session` event carrying it;
and only a present, nonempty, registered id forwards the message to its
session's transport. -/
theorem postMessages_session_validation (registry : SessionRegistry)
    (req : HttpRequest) :
    (jsFalsyStr req.sessionIdParam = true →
      (postMessages registry req).1
          = .badRequest 400 "text/plain" "sessionId is required"
      ∧ Ev.create 0 "mcp-invalid-session" "medium"
          [("error", .str "sessionId is required"), ("statusCode", .num 400)]
          ∈ (postMessages registry req).2.2
      ∧ (postMessages registry req).1 = (postMessages [] req).1
      ∧ (postMessages registry req).2.2 = (postMessages [] req).2.2)
    ∧ (∀ s, req.sessionIdParam = some s → s ≠ "" → registry.lookup s = none →
        (postMessages registry req).1 = .badRequest 400 "text/plain"
            ("No transport found for sessionId \"" ++ s ++ "\"")
        ∧ Ev.create 0 "mcp-invalid-session" "medium"
            [("sessionId", .str s),
             ("error", .str "No transport found for sessionId"),
             ("statusCode", .num 400)] ∈ (postMessages registry req).2.2)
    ∧ (∀ s transport, req.sessionIdParam = some s → s ≠ "" →
        registry.lookup s = some transport →
        (postMessages registry req).1 = .forwarded transport
        ∧ (postMessages registry req).2.2 = [.callHandlePostMessage s]) := by
  refine ⟨?_, ?_, ?_⟩
  · intro hfalsy
    simp [postMessages, hfalsy, norm_invalid_session]
  · intro s hs hne hnone
    simp [postMessages, hs, jsFalsyStr, hne, hnone, norm_invalid_session]
  · intro s transport hs hne hsome
    simp [postMessages, hs, jsFalsyStr, hne, hsome]

/-- C6 witness: an unregistered nonempty id `abc` is rejected with a body
naming it; an absent id is rejected with `sessionId is required`; a
registered id is forwarded. -/
theorem postMessages_session_validation_witness :
    (postMessages [("xyz", 7)] ⟨false, some "abc"⟩).1
        = .badRequest 400 "text/plain" "No transport found for sessionId \"abc\""
    ∧ (postMessages [("xyz", 7)] sampleReq).1
        = .badRequest 400 "text/plain" "sessionId is required"
    ∧ (postMessages [("xyz", 7)] ⟨false, some "xyz"⟩).1 = .forwarded 7 := by
  refine ⟨?_, ?_, ?_⟩
  · have h := (postMessages_session_validation [("xyz", 7)] ⟨false, some "abc"⟩).2.1
      "abc" rfl (by decide) rfl
    simpa using h.1
  · exact ((postMessages_session_validation [("xyz", 7)] sampleReq).1 rfl).1
  · exact ((postMessages_session_validation [("xyz", 7)] ⟨false, some "xyz"⟩).2.2
      "xyz" 7 rfl (by decide) rfl).1

/-- C7 counterexample: the method-not-allowed payload's message is the
literal `Method not allowed.` — with a trailing period — so the payload
claimed by the specification (message `Method not allowed` without the
period) is not the payload returned. -/
theorem methodNotAllowed_message_counterexample :
    ((methodNotAllowedEnvelope.get "error").getD .null).get "message"
        = some (.str "Method not allowed.")
    ∧ "Method not allowed." ≠ "Method not allowed" := by
  constructor
  · rfl
  · decide

/-- C7 (amended): every stateless `GET /` and `DELETE /` returns HTTP 405
with the identical JSON-RPC payload of code -32000 and message
`Method not allowed.`; the two handlers consult no collaborator (they take
none as input) and their only observable step is a single low-severity
`mcp-method-not-allowed` audit event, so repeated calls are identical. -/
theorem methodNotAllowed_fixed_response :
    streamableGet.1 = (405, methodNotAllowedEnvelope)
    ∧ streamableDelete.1 = (405, methodNotAllowedEnvelope)
    ∧ streamableGet.1.2 = streamableDelete.1.2
    ∧ methodNotAllowedEnvelope.get "error"
        = some (.obj [("code", .num (-32000)), ("message", .str "Method not allowed.")])
    ∧ streamableGet.2 =
        [.create 0 "mcp-method-not-allowed" "low"
          [("method", .str "GET"), ("statusCode", .num 405),
           ("jsonrpcCode", .num (-32000))]]
    ∧ streamableDelete.2 =
        [.create 0 "mcp-method-not-allowed" "low"
          [("method", .str "DELETE"), ("statusCode", .num 405),
           ("jsonrpcCode", .num (-32000))]] :=
  ⟨rfl, rfl, rfl, rfl, rfl, rfl⟩

/-- C8 counterexample: when credential resolution fails on the streamable
transport, the `mcp-auth-attempt` handle (handle 0) receives no completion
at all — it is not marked failed — and a protocol response (the fixed
internal-error envelope) is serialized, contrary to the claim. -/
theorem authAttempt_not_failed_counterexample :
    (streamablePost streamAuthFailEnv sampleReq).2.countP (completesHandle 0) = 0
    ∧ (streamablePost streamAuthFailEnv sampleReq).1
        = .errorJson 500 internalErrorEnvelope := by
  constructor
  · decide
  · rfl

/-- C8 (amended): on both transports the `mcp-auth-attempt` event (handle 0)
is created before credential resolution and marked successful immediately
after a successful resolution; when resolution fails, the handle is left
uncompleted and the failure is recorded by the catch-path event instead
(`mcp-http-error` on the streamable transport, which also serializes the
fixed internal-error envelope; `mcp-connection-error` on the SSE transport,
which re-throws without serializing a protocol response). -/
theorem authAttempt_audit (senv : StreamableEnv) (eenv : SseEnv)
    (req : HttpRequest) (registry : SessionRegistry) :
    ((streamablePost senv req).2.take 2 =
      [.create 0 "mcp-auth-attempt" "medium"
        [("transport", .str "streamable"), ("hasAuthHeader", .bool req.hasAuthHeader)],
       .callCredentials])
    ∧ (∀ credentials, senv.credentialsResult = .ok credentials →
        (streamablePost senv req).2.take 3 =
          [.create 0 "mcp-auth-attempt" "medium"
            [("transport", .str "streamable"),
             ("hasAuthHeader", .bool req.hasAuthHeader)],
           .callCredentials,
           .evSuccess 0 [("principal", .str credentials.userEntityRef)]])
    ∧ (∀ e, senv.credentialsResult = .error e →
        (streamablePost senv req).2.countP (completesHandle 0) = 0
        ∧ Ev.create 1 "mcp-http-error" "high"
            [("transport", .str "streamable"),
             ("clientId", Json.null),
             ("errorType", .str e.name),
             ("errorMessage", .str e.message),
             ("statusCode", .num 500),
             ("jsonrpcCode", .num (-32603)),
             ("principal", Json.null)] ∈ (streamablePost senv req).2
        ∧ (streamablePost senv req).1 = .errorJson 500 internalErrorEnvelope)
    ∧ ((sseGet eenv req registry).2.2.take 2 =
        [.create 0 "mcp-auth-attempt" "medium"
          [("transport", .str "sse"), ("hasAuthHeader", .bool req.hasAuthHeader)],
         .callCredentials])
    ∧ (∀ credentials, eenv.credentialsResult = .ok credentials →
        (sseGet eenv req registry).2.2.take 3 =
          [.create 0 "mcp-auth-attempt" "medium"
            [("transport", .str "sse"), ("hasAuthHeader", .bool req.hasAuthHeader)],
           .callCredentials,
           .evSuccess 0 [("principal", .str credentials.userEntityRef)]])
    ∧ (∀ e, eenv.credentialsResult = .error e →
        (sseGet eenv req registry).2.2.countP (completesHandle 0) = 0
        ∧ (sseGet eenv req registry).1 = .propagated e
        ∧ Ev.create 1 "mcp-connection-error" "high"
            [("transport", .str "sse"),
             ("errorType", .str e.name),
             ("errorMessage", .str e.message),
             ("principal", Json.null)] ∈ (sseGet eenv req registry).2.2) := by
  refine ⟨?_, ?_, ?_, ?_, ?_, ?_⟩
  · cases hcred : senv.credentialsResult with
    | error e => simp [streamablePost, hcred, streamableCatch, norm_auth_attempt]
    | ok credentials =>
        cases hconn : senv.connectResult with
        | error e => simp [streamablePost, hcred, hconn, streamableCatch, norm_auth_attempt]
        | ok u =>
            cases u
            cases hhandle : senv.handleRequestResult with
            | error e =>
                simp [streamablePost, hcred, hconn, hhandle, streamableCatch,
                  norm_auth_attempt]
            | ok u' =>
                cases u'
                simp [streamablePost, hcred, hconn, hhandle, norm_auth_attempt]
  · intro credentials hcred
    cases hconn : senv.connectResult with
    | error e => simp [streamablePost, hcred, hconn, streamableCatch, norm_auth_attempt]
    | ok u =>
        cases u
        cases hhandle : senv.handleRequestResult with
        | error e =>
            simp [streamablePost, hcred, hconn, hhandle, streamableCatch,
              norm_auth_attempt]
        | ok u' =>
            cases u'
            simp [streamablePost, hcred, hconn, hhandle, norm_auth_attempt]
  · intro e hcred
    refine ⟨?_, ?_, ?_⟩
    · simp [streamablePost, hcred, streamableCatch, completesHandle,
        List.countP_cons]
    · simp [streamablePost, hcred, streamableCatch, optStr, norm_http_error]
    · simp [streamablePost, hcred, streamableCatch]
  · cases hcred : eenv.credentialsResult with
    | error e => simp [sseGet, hcred, norm_auth_attempt]
    | ok credentials =>
        cases hconn : eenv.connectResult with
        | error e => simp [sseGet, hcred, hconn, norm_auth_attempt]
        | ok u => cases u; simp [sseGet, hcred, hconn, norm_auth_attempt]
  · intro credentials hcred
    cases hconn : eenv.connectResult with
    | error e => simp [sseGet, hcred, hconn, norm_auth_attempt]
    | ok u => cases u; simp [sseGet, hcred, hconn, norm_auth_attempt]
  · intro e hcred
    refine ⟨?_, ?_, ?_⟩
    · simp [sseGet, hcred, completesHandle, List.countP_cons]
    · simp [sseGet, hcred]
    · simp [sseGet, hcred, norm_connection_error]

/-- C8 witness: a successful resolution marks the auth-attempt handle
successful right after the credentials call on both transports; a failed
resolution leaves it uncompleted on the SSE transport and the failure
propagates. -/
theorem authAttempt_audit_witness :
    ((streamablePost streamOkEnv sampleReq).2.take 3 =
      [.create 0 "mcp-auth-attempt" "medium"
        [("transport", .str "streamable"), ("hasAuthHeader", .bool false)],
       .callCredentials,
       .evSuccess 0 [("principal", .str "user:default/alice")]])
    ∧ (sseGet sseAuthFailEnv sampleReq []).2.2.countP (completesHandle 0) = 0
    ∧ (sseGet sseAuthFailEnv sampleReq []).1 = .propagated sampleErr :=
  ⟨(authAttempt_audit streamOkEnv sseOkEnv sampleReq []).2.1 sampleCredential rfl,
   ((authAttempt_audit streamOkEnv sseAuthFailEnv sampleReq []).2.2.2.2.2
      sampleErr rfl).1,
   ((authAttempt_audit streamOkEnv sseAuthFailEnv sampleReq []).2.2.2.2.2
      sampleErr rfl).2.1⟩

/-- C10: A `POST /messages` call whose session id is missing (or falsy) or
does not resolve in the registry leaves the registry unchanged and forwards
to no transport; in fact the handler never mutates the registry at all. -/
theorem postMessages_frame (registry : SessionRegistry) (req : HttpRequest)
    (h : ∀ s, req.sessionIdParam = some s → registry.lookup s = none) :
    (postMessages registry req).2.1 = registry
    ∧ (postMessages registry req).2.2.countP isCallPostMessage = 0 := by
  cases hq : req.sessionIdParam with
  | none => simp [postMessages, jsFalsyStr, hq, isCallPostMessage, List.countP_cons]
  | some s =>
      by_cases hs : s = ""
      · subst hs
        simp [postMessages, jsFalsyStr, hq, isCallPostMessage, List.countP_cons]
      · have hnone := h s hq
        simp [postMessages, jsFalsyStr, hq, hs, hnone, isCallPostMessage,
          List.countP_cons]

/-- C10 witness: an unregistered id `abc` against a one-entry registry
leaves the registry unchanged and forwards nothing. -/
theorem postMessages_frame_witness :
    (postMessages [("xyz", 7)] ⟨false, some "abc"⟩).2.1 = [("xyz", 7)]
    ∧ (postMessages [("xyz", 7)] ⟨false, some "abc"⟩).2.2.countP
        isCallPostMessage = 0 :=
  postMessages_frame [("xyz", 7)] ⟨false, some "abc"⟩
    (fun s hs => by cases hs; rfl)

end McpActions
